import Mathlib

/-!
Verification of the table renderer in
`src/web/src/components/MemoContent/Table.tsx`.

The component receives props `{ index, header, rows }`, destructures only
`header` and `rows`, and returns
`<table><thead><tr>{header.map ...}</tr></thead><tbody>{rows.map ...}</tbody></table>`.
Each header node `h` at position `i` becomes
`<th key={i}><Renderer key={`${h.type}-${i}`} index={String(i)} node={h} /></th>`,
and each cell `r` of row `i` at position `j` becomes
`<td key={j}><Renderer key={`${r.type}-${i}-${j}`} index={String(j)} node={r} /></td>`.

The embedding below records, for every delegated cell, the element key, the
`Renderer` key, the `index` prop and the node passed through; static
`className` attributes are compile-time constants and are omitted.
-/

namespace MemoRender

/-- The decimal digit character for `d < 10`: `'0'` through `'9'`. -/
def decDigit (d : Nat) : Char := Char.ofNat (48 + d)

/-- Decimal rendering of a natural number, the embedding of JavaScript
`String(n)` (and of interpolating a number into a template literal) for the
non-negative integers produced by array iteration. Fuel-based so that it is
structurally recursive: `n + 1` units of fuel always suffice. -/
def toDecimalAux : Nat → Nat → List Char
  | 0, _ => []
  | fuel + 1, n =>
    if n < 10 then [decDigit n]
    else toDecimalAux fuel (n / 10) ++ [decDigit (n % 10)]

/-- JavaScript `String(n)` for a natural number `n`. -/
def jsString (n : Nat) : String :=
  ⟨toDecimalAux (n + 1) n⟩

/-- Decimal evaluation of a character list, used to prove `jsString` injective. -/
def decimalVal (l : List Char) : Nat :=
  l.foldl (fun a c => a * 10 + (c.toNat - 48)) 0

theorem decimalVal_append_singleton (l : List Char) (c : Char) :
    decimalVal (l ++ [c]) = decimalVal l * 10 + (c.toNat - 48) := by
  simp [decimalVal, List.foldl_append]

theorem decDigit_toNat_of_lt_10 (d : Nat) (hd : d < 10) :
    (decDigit d).toNat = d + 48 := by
  interval_cases d <;> decide

theorem decimalVal_toDecimalAux (fuel n : Nat) (h : n < 10 ^ fuel) :
    decimalVal (toDecimalAux fuel n) = n := by
  induction fuel generalizing n with
  | zero => simp [toDecimalAux, decimalVal] at h ⊢; omega
  | succ fuel ih =>
    by_cases hn : n < 10
    · simp [toDecimalAux, hn, decimalVal, decDigit_toNat_of_lt_10 n hn]
    · have hdiv : n / 10 < 10 ^ fuel := by
        have h10 : (10 : Nat) ^ (fuel + 1) = 10 ^ fuel * 10 := by ring
        omega
      simp [toDecimalAux, hn, decimalVal_append_singleton, ih _ hdiv,
        decDigit_toNat_of_lt_10 (n % 10) (Nat.mod_lt n (by omega))]
      omega

theorem lt_ten_pow_succ_self (n : Nat) : n < 10 ^ (n + 1) := by
  calc n < 10 ^ n := Nat.lt_pow_self (by omega) n
  _ ≤ 10 ^ (n + 1) := Nat.pow_le_pow_right (by omega) (by omega)

/-- `jsString` is injective: decimal rendering determines the number. -/
theorem jsString_injective {a b : Nat} (h : jsString a = jsString b) : a = b := by
  have hdata : toDecimalAux (a + 1) a = toDecimalAux (b + 1) b := congrArg String.data h
  have ha := decimalVal_toDecimalAux (a + 1) a (lt_ten_pow_succ_self a)
  have hb := decimalVal_toDecimalAux (b + 1) b (lt_ten_pow_succ_self b)
  rw [hdata] at ha
  omega

theorem decDigit_ne_dash (d : Nat) (hd : d < 10) : decDigit d ≠ '-' := by
  interval_cases d <;> decide

/-- No dash occurs in a decimal rendering. -/
theorem dash_not_mem_toDecimalAux (fuel n : Nat) : '-' ∉ toDecimalAux fuel n := by
  induction fuel generalizing n with
  | zero => simp [toDecimalAux]
  | succ fuel ih =>
    by_cases hn : n < 10
    · simp [toDecimalAux, hn]
      exact (decDigit_ne_dash n hn).symm
    · simp [toDecimalAux, hn]
      refine ⟨ih _, ?_⟩
      exact (decDigit_ne_dash (n % 10) (Nat.mod_lt n (by omega))).symm

theorem dash_not_mem_jsString (n : Nat) : '-' ∉ (jsString n).data :=
  dash_not_mem_toDecimalAux (n + 1) n

/-- Cancellation around the last separator: if two dash-separated
concatenations agree and neither suffix contains a dash, then prefixes and
suffixes agree separately. -/
theorem append_dash_cancel :
    ∀ (a b x y : List Char), '-' ∉ x → '-' ∉ y →
      a ++ '-' :: x = b ++ '-' :: y → a = b ∧ x = y := by
  intro a
  induction a with
  | nil =>
    intro b x y hx hy h
    cases b with
    | nil =>
      simp at h
      exact ⟨rfl, h⟩
    | cons c b =>
      simp at h
      obtain ⟨hc, hrest⟩ := h
      exfalso
      apply hx
      rw [hrest]
      simp
  | cons c a ih =>
    intro b x y hx hy h
    cases b with
    | nil =>
      simp at h
      obtain ⟨hc, hrest⟩ := h
      exfalso
      apply hy
      rw [← hrest]
      simp
    | cons d b =>
      simp at h
      obtain ⟨hcd, hrest⟩ := h
      obtain ⟨hab, hxy⟩ := ih b x y hx hy hrest
      exact ⟨by rw [hcd, hab], hxy⟩

/-- String-level corollary of `append_dash_cancel` for numeric suffixes:
`p ++ "-" ++ jsString m = q ++ "-" ++ jsString n` forces `p = q` and `m = n`. -/
theorem dash_jsString_cancel (p q : String) (m n : Nat)
    (h : p ++ "-" ++ jsString m = q ++ "-" ++ jsString n) : p = q ∧ m = n := by
  have hdata : p.data ++ '-' :: (jsString m).data
      = q.data ++ '-' :: (jsString n).data := by
    have := congrArg String.data h
    simpa [String.data_append] using this
  obtain ⟨hpq, hmn⟩ := append_dash_cancel p.data q.data _ _
    (dash_not_mem_jsString m) (dash_not_mem_jsString n) hdata
  refine ⟨?_, jsString_injective (String.ext hmn)⟩
  exact String.ext hpq

/-! ## Data model

The `Node` and `TableNode_Row` values consumed by the component come from the
generated protobuf bindings (`@/types/proto/api/v1/markdown_service`), which
are not part of the table component itself. Modelled from the spec: a `Node`
is a tagged value whose discriminant `type` is interpolated into template
literals by the component; all other payload is opaque to the table renderer
and is represented by an uninterpreted `content` field. A `TableNode_Row`
carries the ordered list of cell nodes of one row. -/

structure CellNode where
  type : String
  content : String
deriving DecidableEq, Repr

structure TableNode_Row where
  cells : List CellNode
deriving DecidableEq, Repr

/-- The props of the `Table` component: `{ index: string; header: Node[];
rows: TableNode_Row[] }`. -/
structure Props where
  index : String
  header : List CellNode
  rows : List TableNode_Row
deriving DecidableEq, Repr

/-! ## Rendered output -/

/-- One rendered table cell: the `<th>`/`<td>` element key, the key and
`index` props of the delegated `Renderer`, and the node handed to it. -/
structure RenderedCell where
  key : String
  rendererKey : String
  index : String
  node : CellNode
deriving DecidableEq, Repr

/-- One rendered `<tr>`: its element key (`none` for the header row, which
carries no key in the source) and its cells in order. -/
structure RenderedRow where
  key : Option String
  cells : List RenderedCell
deriving DecidableEq, Repr

/-- The structural output of the component: the rows inside `<thead>` and the
rows inside `<tbody>`. -/
structure StructuredTable where
  headerRows : List RenderedRow
  bodyRows : List RenderedRow
deriving DecidableEq, Repr

/-- Embedding of JavaScript `Array.prototype.map` with the index argument of
the callback, starting the counter at `k`. -/
def jsMapIdxAux (f : α → Nat → β) : Nat → List α → List β
  | _, [] => []
  | k, a :: as => f a k :: jsMapIdxAux f (k + 1) as

/-- `arr.map((a, i) => f a i)`. -/
def jsMapIdx (f : α → Nat → β) (l : List α) : List β :=
  jsMapIdxAux f 0 l

/-- Embedding of the component body: `<thead>` holds the one literal `<tr>`
with a `<th>` per header node, `<tbody>` holds one `<tr>` per row with a
`<td>` per cell of that row; keys and `index` props exactly as in the source:
`th key={i}`, header `Renderer key={`${h.type}-${i}`} index={String(i)}`,
`tr key={i}`, `td key={j}`, body `Renderer key={`${r.type}-${i}-${j}`}
index={String(j)}`. -/
def renderTable (header : List CellNode) (rows : List TableNode_Row) :
    StructuredTable :=
  { headerRows := [
      { key := none,
        cells := jsMapIdx (fun h i =>
          { key := jsString i,
            rendererKey := h.type ++ "-" ++ jsString i,
            index := jsString i,
            node := h }) header }],
    bodyRows := jsMapIdx (fun row i =>
      { key := some (jsString i),
        cells := jsMapIdx (fun r j =>
          { key := jsString j,
            rendererKey := r.type ++ "-" ++ jsString i ++ "-" ++ jsString j,
            index := jsString j,
            node := r }) row.cells }) rows }

/-- The `Table` component: destructures only `header` and `rows` from its
props (the declared `index` prop is not bound) and returns the table markup. -/
def Table (p : Props) : StructuredTable :=
  renderTable p.header p.rows

/-! ## Basic facts about `jsMapIdx` -/

theorem length_jsMapIdxAux (f : α → Nat → β) (k : Nat) (l : List α) :
    (jsMapIdxAux f k l).length = l.length := by
  induction l generalizing k with
  | nil => rfl
  | cons a as ih => simp [jsMapIdxAux, ih]

theorem length_jsMapIdx (f : α → Nat → β) (l : List α) :
    (jsMapIdx f l).length = l.length :=
  length_jsMapIdxAux f 0 l

theorem getElem?_jsMapIdxAux (f : α → Nat → β) (k : Nat) (l : List α) (i : Nat) :
    (jsMapIdxAux f k l)[i]? = l[i]?.map (fun a => f a (k + i)) := by
  induction l generalizing k i with
  | nil => simp [jsMapIdxAux]
  | cons a as ih =>
    cases i with
    | zero => simp [jsMapIdxAux]
    | succ i =>
      simp [jsMapIdxAux, ih (k + 1) i]
      have : k + 1 + i = k + (i + 1) := by omega
      rw [this]

theorem getElem?_jsMapIdx (f : α → Nat → β) (l : List α) (i : Nat) :
    (jsMapIdx f l)[i]? = l[i]?.map (fun a => f a i) := by
  have := getElem?_jsMapIdxAux f 0 l i
  simpa [jsMapIdx] using this

theorem map_jsMapIdxAux (f : α → Nat → β) (g : β → γ) (k : Nat) (l : List α) :
    (jsMapIdxAux f k l).map g = jsMapIdxAux (fun a i => g (f a i)) k l := by
  induction l generalizing k with
  | nil => rfl
  | cons a as ih => simp [jsMapIdxAux, ih]

theorem jsMapIdxAux_constant (f : α → Nat → β) (g : α → β) (k : Nat) (l : List α)
    (h : ∀ a i, f a i = g a) : jsMapIdxAux f k l = l.map g := by
  induction l generalizing k with
  | nil => rfl
  | cons a as ih => simp [jsMapIdxAux, ih, h]

@[simp] theorem jsMapIdxAux_id (k : Nat) (l : List α) :
    jsMapIdxAux (fun a _ => a) k l = l := by
  induction l generalizing k with
  | nil => rfl
  | cons a as ih => simp [jsMapIdxAux, ih]

/-- Shape of a header cell looked up through `renderTable`. -/
theorem headerCell_lookup (h : List CellNode) (r : List TableNode_Row)
    (i : Nat) (c : RenderedCell)
    (hc : ((renderTable h r).headerRows.head?.bind fun row => row.cells[i]?) = some c) :
    ∃ a, h[i]? = some a ∧ c =
      { key := jsString i, rendererKey := a.type ++ "-" ++ jsString i,
        index := jsString i, node := a } := by
  simp [renderTable, getElem?_jsMapIdx] at hc
  obtain ⟨a, ha, hc⟩ := hc
  exact ⟨a, ha, hc.symm⟩

/-- Shape of a body cell looked up through `renderTable`. -/
theorem bodyCell_lookup (h : List CellNode) (r : List TableNode_Row)
    (ri ci : Nat) (c : RenderedCell)
    (hc : ((renderTable h r).bodyRows[ri]?.bind fun row => row.cells[ci]?) = some c) :
    ∃ row a, r[ri]? = some row ∧ row.cells[ci]? = some a ∧ c =
      { key := jsString ci,
        rendererKey := a.type ++ "-" ++ jsString ri ++ "-" ++ jsString ci,
        index := jsString ci, node := a } := by
  simp only [renderTable, getElem?_jsMapIdx] at hc
  cases hri : r[ri]? with
  | none => rw [hri] at hc; simp at hc
  | some row =>
    rw [hri] at hc
    simp [getElem?_jsMapIdx] at hc
    obtain ⟨a, ha, hc⟩ := hc
    exact ⟨row, a, rfl, ha, hc.symm⟩

/-- The state-passing reading of the render pass. The component body contains
no assignment and no mutating call: its only operations on `header` and
`rows` are `Array.prototype.map` traversals (embedded by the non-mutating
`jsMapIdx`) and template-literal construction, so a pass maps the input
arrays to themselves next to the produced output. -/
def renderTablePass (header : List CellNode) (rows : List TableNode_Row) :
    (List CellNode × List TableNode_Row) × StructuredTable :=
  ((header, rows), renderTable header rows)

/-- C3: the rendered header row has exactly `header.length` cells, the body
group has exactly `rows.length` rows, and the row at each position renders
exactly as many cells as that input row has — ragged rows included, with no
padding or truncation against the header length. -/
theorem renderTable_group_lengths (h : List CellNode) (r : List TableNode_Row) :
    ((renderTable h r).headerRows.map fun row => row.cells.length) = [h.length]
    ∧ (renderTable h r).bodyRows.length = r.length
    ∧ ∀ i : Nat, ((renderTable h r).bodyRows[i]?.map fun row => row.cells.length)
        = (r[i]?.map fun row => row.cells.length) := by
  refine ⟨?_, ?_, ?_⟩
  · simp [renderTable, jsMapIdx, length_jsMapIdxAux]
  · simp [renderTable, jsMapIdx, length_jsMapIdxAux]
  · intro i
    simp only [renderTable, jsMapIdx, getElem?_jsMapIdxAux, Option.map_map]
    congr 1
    funext a
    simp [Function.comp, length_jsMapIdxAux]

/-- C4 counterexample: on an empty header and empty row list the component
still emits the literal header `<tr>`, so the header group contains one row
with zero cells rather than no row at all (the body group is empty as
claimed). -/
theorem empty_header_emits_row :
    (renderTable ([] : List CellNode) ([] : List TableNode_Row)).headerRows
      = [{ key := none, cells := [] }]
    ∧ (renderTable ([] : List CellNode) ([] : List TableNode_Row)).headerRows.length ≠ 0
    ∧ (renderTable ([] : List CellNode) ([] : List TableNode_Row)).bodyRows = [] := by
  refine ⟨rfl, by decide, rfl⟩

/-- C4 amended: an empty header list yields a header group containing exactly
one emitted row with zero cells (not an absent row), and an empty row list
yields an empty body group with no rows emitted. -/
theorem empty_inputs_render :
    (∀ r : List TableNode_Row,
      (renderTable [] r).headerRows = [{ key := none, cells := [] }])
    ∧ ∀ h : List CellNode, (renderTable h []).bodyRows = [] := by
  exact ⟨fun r => rfl, fun h => rfl⟩

/-- C5: rendering is an order-preserving projection — stripping the rendered
wrappers from the header row gives back exactly the header list, and doing so
row by row in the body gives back exactly the input rows' cell lists, in
order, with nothing sorted, filtered or deduplicated. -/
theorem renderTable_order_preserving (h : List CellNode) (r : List TableNode_Row) :
    ((renderTable h r).headerRows.map fun row => row.cells.map fun c => c.node) = [h]
    ∧ ((renderTable h r).bodyRows.map fun row => row.cells.map fun c => c.node)
        = r.map fun row => row.cells := by
  constructor
  · simp [renderTable, jsMapIdx, map_jsMapIdxAux]
  · simp only [renderTable, jsMapIdx, map_jsMapIdxAux, jsMapIdxAux_id]
    exact jsMapIdxAux_constant _ _ 0 r fun a i => rfl

/-- C6: render is a pure function of its input — any two invocations of the
component whose props agree on `header` and on `rows` (the `index` prop may
even differ) produce structurally identical output: same shape, same content,
same keys and indices. -/
theorem render_pure_function (p1 p2 : Props)
    (hh : p1.header = p2.header) (hr : p1.rows = p2.rows) :
    Table p1 = Table p2 := by
  simp [Table, hh, hr]

/-- Witness for C6 at concrete props that differ in their `index` field. -/
theorem render_pure_function_witness :
    (Props.mk "0" [⟨"2", "x"⟩] []).header = (Props.mk "1" [⟨"2", "x"⟩] []).header
    ∧ (Props.mk "0" [⟨"2", "x"⟩] []).rows = (Props.mk "1" [⟨"2", "x"⟩] []).rows
    ∧ Table (Props.mk "0" [⟨"2", "x"⟩] []) = Table (Props.mk "1" [⟨"2", "x"⟩] []) :=
  ⟨rfl, rfl, render_pure_function _ _ rfl rfl⟩

/-- C8: rendering has no effect on its inputs — the pass returns the `header`
and `rows` arrays unchanged next to the output it produces. -/
theorem renderTable_inputs_unchanged (h : List CellNode) (r : List TableNode_Row) :
    (renderTablePass h r).1.1 = h ∧ (renderTablePass h r).1.2 = r
    ∧ (renderTablePass h r).2 = renderTable h r :=
  ⟨rfl, rfl, rfl⟩

/-- C9: the component's output is independent of its `index` prop — the prop
is declared but never bound in the destructuring, so two invocations that
differ only in `index` render identically. -/
theorem table_output_independent_of_index (i1 i2 : String)
    (h : List CellNode) (r : List TableNode_Row) :
    Table ⟨i1, h, r⟩ = Table ⟨i2, h, r⟩ := rfl

/-- C1 counterexample: the header cell at column 0 and the body cell at
row 0, column 0 are distinct nodes, yet both receive the `index` prop `"0"` —
the body cell's index is `String(j)` alone, so it collides with the header
index of the same column. -/
theorem renderIndex_collision_header_body :
    (((renderTable [⟨"2", "x"⟩] [⟨[⟨"3", "y"⟩]⟩]).headerRows.head?.bind
        fun row => row.cells.head?).map fun c => c.index) = some "0"
    ∧ (((renderTable [⟨"2", "x"⟩] [⟨[⟨"3", "y"⟩]⟩]).bodyRows.head?.bind
        fun row => row.cells.head?).map fun c => c.index) = some "0"
    ∧ (((renderTable [⟨"2", "x"⟩] [⟨[⟨"3", "y"⟩]⟩]).headerRows.head?.bind
        fun row => row.cells.head?).map fun c => c.node)
      ≠ (((renderTable [⟨"2", "x"⟩] [⟨[⟨"3", "y"⟩]⟩]).bodyRows.head?.bind
        fun row => row.cells.head?).map fun c => c.node) := by
  refine ⟨by decide, by decide, by decide⟩

/-- C1 amended: every header cell at column `i` carries index `String(i)` and
every body cell at `(ri, ci)` carries index `String(ci)` — the row position
is not part of the index — so indices are pairwise distinct among the header
cells and among the cells of any single row, but a body cell shares its index
with the same-column header cell and with same-column cells of other rows. -/
theorem renderIndex_local_position (h : List CellNode) (r : List TableNode_Row) :
    (∀ (i : Nat) (c : RenderedCell),
      ((renderTable h r).headerRows.head?.bind fun row => row.cells[i]?)
        = some c → c.index = jsString i)
    ∧ (∀ (ri ci : Nat) (c : RenderedCell),
      ((renderTable h r).bodyRows[ri]?.bind fun row => row.cells[ci]?)
        = some c → c.index = jsString ci)
    ∧ (∀ (i1 i2 : Nat) (c1 c2 : RenderedCell), i1 ≠ i2 →
      ((renderTable h r).headerRows.head?.bind fun row => row.cells[i1]?) = some c1 →
      ((renderTable h r).headerRows.head?.bind fun row => row.cells[i2]?) = some c2 →
      c1.index ≠ c2.index)
    ∧ ∀ (ri j1 j2 : Nat) (c1 c2 : RenderedCell), j1 ≠ j2 →
      ((renderTable h r).bodyRows[ri]?.bind fun row => row.cells[j1]?) = some c1 →
      ((renderTable h r).bodyRows[ri]?.bind fun row => row.cells[j2]?) = some c2 →
      c1.index ≠ c2.index := by
  refine ⟨?_, ?_, ?_, ?_⟩
  · intro i c hc
    obtain ⟨a, -, rfl⟩ := headerCell_lookup h r i c hc
    rfl
  · intro ri ci c hc
    obtain ⟨row, a, -, -, rfl⟩ := bodyCell_lookup h r ri ci c hc
    rfl
  · intro i1 i2 c1 c2 hne h1 h2 hidx
    obtain ⟨a1, -, rfl⟩ := headerCell_lookup h r i1 c1 h1
    obtain ⟨a2, -, rfl⟩ := headerCell_lookup h r i2 c2 h2
    exact hne (jsString_injective hidx)
  · intro ri j1 j2 c1 c2 hne h1 h2 hidx
    obtain ⟨row1, a1, -, -, rfl⟩ := bodyCell_lookup h r ri j1 c1 h1
    obtain ⟨row2, a2, -, -, rfl⟩ := bodyCell_lookup h r ri j2 c2 h2
    exact hne (jsString_injective hidx)

/-- Witness for the amended C1 on a table whose two header cells have
textually identical content. -/
theorem renderIndex_local_position_witness :
    ((renderTable [⟨"2", "x"⟩, ⟨"2", "x"⟩] []).headerRows.head?.bind
      fun row => row.cells[0]?) = some ⟨"0", "2-0", "0", ⟨"2", "x"⟩⟩
    ∧ ((renderTable [⟨"2", "x"⟩, ⟨"2", "x"⟩] []).headerRows.head?.bind
      fun row => row.cells[1]?) = some ⟨"1", "2-1", "1", ⟨"2", "x"⟩⟩
    ∧ (⟨"0", "2-0", "0", ⟨"2", "x"⟩⟩ : RenderedCell).index
      ≠ (⟨"1", "2-1", "1", ⟨"2", "x"⟩⟩ : RenderedCell).index := by
  refine ⟨by decide, by decide, ?_⟩
  exact (renderIndex_local_position [⟨"2", "x"⟩, ⟨"2", "x"⟩] []).2.2.1
    0 1 _ _ (by decide) (by decide) (by decide)

/-- C2 counterexample: rendering with parent index `"7"` and with parent
index `"8"` produces identical output, and the first header child receives
index `"0"`, not the composition `"7" ++ "." ++ "0"` — the table renderer
never composes its own `index` prop into the indices it passes down. -/
theorem index_not_composed_from_parent :
    Table ⟨"7", [⟨"2", "x"⟩], []⟩ = Table ⟨"8", [⟨"2", "x"⟩], []⟩
    ∧ (((Table ⟨"7", [⟨"2", "x"⟩], []⟩).headerRows.head?.bind
        fun row => row.cells.head?).map fun c => c.index) = some "0"
    ∧ ("0" : String) ≠ "7" ++ "." ++ "0" := by
  refine ⟨rfl, by decide, by decide⟩

/-- C2 amended: the table renderer ignores its `index` prop entirely; every
child index it passes down is derived from the child's local position alone —
`String(i)` for the header cell at column `i` and `String(j)` for the body
cell at column `j` — with no composition with the parent's index. -/
theorem child_index_from_local_position (p : Props) :
    Table p = renderTable p.header p.rows
    ∧ (∀ q : Props, q.header = p.header → q.rows = p.rows → Table q = Table p)
    ∧ (∀ (i : Nat) (c : RenderedCell),
      ((Table p).headerRows.head?.bind fun row => row.cells[i]?)
        = some c → c.index = jsString i)
    ∧ ∀ (ri ci : Nat) (c : RenderedCell),
      ((Table p).bodyRows[ri]?.bind fun row => row.cells[ci]?)
        = some c → c.index = jsString ci := by
  refine ⟨rfl, ?_, ?_, ?_⟩
  · intro q hh hr
    simp [Table, hh, hr]
  · intro i c hc
    obtain ⟨a, -, rfl⟩ := headerCell_lookup p.header p.rows i c hc
    rfl
  · intro ri ci c hc
    obtain ⟨row, a, -, -, rfl⟩ := bodyCell_lookup p.header p.rows ri ci c hc
    rfl

/-- Witness for the amended C2 at concrete props. -/
theorem child_index_from_local_position_witness :
    ((Table ⟨"7", [⟨"2", "x"⟩], []⟩).headerRows.head?.bind
      fun row => row.cells[0]?) = some ⟨"0", "2-0", "0", ⟨"2", "x"⟩⟩
    ∧ (⟨"0", "2-0", "0", ⟨"2", "x"⟩⟩ : RenderedCell).index = jsString 0 := by
  refine ⟨by decide, ?_⟩
  exact (child_index_from_local_position ⟨"7", [⟨"2", "x"⟩], []⟩).2.2.1
    0 _ (by decide)

/-- C10: within any single rendered row, cell identifiers are pairwise
distinct for distinct positions: element keys embed the position directly,
and `Renderer` keys end in `-${i}` (header) or `-${i}-${j}` (body), whose
decimal suffix is dash-free, so two sibling cells never share either key
even when their nodes are structurally identical. -/
theorem row_cell_keys_distinct (h : List CellNode) (r : List TableNode_Row) :
    (∀ (i1 i2 : Nat) (c1 c2 : RenderedCell), i1 ≠ i2 →
      ((renderTable h r).headerRows.head?.bind fun row => row.cells[i1]?) = some c1 →
      ((renderTable h r).headerRows.head?.bind fun row => row.cells[i2]?) = some c2 →
      c1.key ≠ c2.key ∧ c1.rendererKey ≠ c2.rendererKey)
    ∧ ∀ (ri j1 j2 : Nat) (c1 c2 : RenderedCell), j1 ≠ j2 →
      ((renderTable h r).bodyRows[ri]?.bind fun row => row.cells[j1]?) = some c1 →
      ((renderTable h r).bodyRows[ri]?.bind fun row => row.cells[j2]?) = some c2 →
      c1.key ≠ c2.key ∧ c1.rendererKey ≠ c2.rendererKey := by
  constructor
  · intro i1 i2 c1 c2 hne h1 h2
    obtain ⟨a1, -, rfl⟩ := headerCell_lookup h r i1 c1 h1
    obtain ⟨a2, -, rfl⟩ := headerCell_lookup h r i2 c2 h2
    constructor
    · exact fun hk => hne (jsString_injective hk)
    · intro hk
      exact hne (dash_jsString_cancel a1.type a2.type i1 i2 hk).2
  · intro ri j1 j2 c1 c2 hne h1 h2
    obtain ⟨row1, a1, -, -, rfl⟩ := bodyCell_lookup h r ri j1 c1 h1
    obtain ⟨row2, a2, -, -, rfl⟩ := bodyCell_lookup h r ri j2 c2 h2
    constructor
    · exact fun hk => hne (jsString_injective hk)
    · intro hk
      exact hne (dash_jsString_cancel (a1.type ++ "-" ++ jsString ri)
        (a2.type ++ "-" ++ jsString ri) j1 j2 hk).2

/-- Witness for C10 on a row with two structurally identical cells. -/
theorem row_cell_keys_distinct_witness :
    ((renderTable [] [⟨[⟨"2", "x"⟩, ⟨"2", "x"⟩]⟩]).bodyRows[0]?.bind
      fun row => row.cells[0]?) = some ⟨"0", "2-0-0", "0", ⟨"2", "x"⟩⟩
    ∧ ((renderTable [] [⟨[⟨"2", "x"⟩, ⟨"2", "x"⟩]⟩]).bodyRows[0]?.bind
      fun row => row.cells[1]?) = some ⟨"1", "2-0-1", "1", ⟨"2", "x"⟩⟩
    ∧ (⟨"0", "2-0-0", "0", ⟨"2", "x"⟩⟩ : RenderedCell).key
      ≠ (⟨"1", "2-0-1", "1", ⟨"2", "x"⟩⟩ : RenderedCell).key
    ∧ (⟨"0", "2-0-0", "0", ⟨"2", "x"⟩⟩ : RenderedCell).rendererKey
      ≠ (⟨"1", "2-0-1", "1", ⟨"2", "x"⟩⟩ : RenderedCell).rendererKey := by
  refine ⟨by decide, by decide, ?_⟩
  exact (row_cell_keys_distinct [] [⟨[⟨"2", "x"⟩, ⟨"2", "x"⟩]⟩]).2
    0 0 1 _ _ (by decide) (by decide) (by decide)

/-! ## The recursive NodeRenderer (spec-modelled)

Modelled from the spec: the generic `NodeRenderer` (the `Renderer` component
delegated to by the table component) is not part of the source slice under
`src/`; sections 2, 4.1 and 4.2 of the spec describe it as a total,
synchronous dispatch on the node's kind that recurses into child nodes,
deriving each child's index by composing the parent's index with the child's
position, with header-cell and body-cell indices derived from the cell
positions, and a non-crashing fallback for unknown kinds. The definitions
below follow those words. -/

inductive NodeT where
  | text (content : String)
  | lineBreak
  | bold (children : List NodeT)
  | italic (children : List NodeT)
  | link (target : String) (children : List NodeT)
  | table (header : List NodeT) (rows : List (List NodeT))
  | unknown (kind : String)
deriving Repr

inductive OutT where
  | leaf (kind payload index : String)
  | group (kind payload index : String) (children : List OutT)
  | tableOut (index : String) (headerGroup : List OutT)
      (bodyGroup : List (List OutT))
deriving Repr

mutual

/-- Modelled from the spec: `render(node, index)` dispatches on the kind,
rendering leaves immediately and recursing into children of composite kinds
with composed indices; unknown kinds fall back to a placeholder leaf. -/
def renderT : NodeT → String → OutT
  | .text s, idx => .leaf "text" s idx
  | .lineBreak, idx => .leaf "lineBreak" "" idx
  | .bold cs, idx => .group "bold" "" idx (renderChildren cs idx 0)
  | .italic cs, idx => .group "italic" "" idx (renderChildren cs idx 0)
  | .link t cs, idx => .group "link" t idx (renderChildren cs idx 0)
  | .table h rs, idx =>
      .tableOut idx (renderChildren h (idx ++ ".h") 0) (renderRows rs idx 0)
  | .unknown k, idx => .leaf "unknown" k idx

/-- Children of a composite node, child `k` at index `idx ++ "." ++ k`. -/
def renderChildren : List NodeT → String → Nat → List OutT
  | [], _, _ => []
  | c :: cs, idx, k =>
      renderT c (idx ++ "." ++ jsString k) :: renderChildren cs idx (k + 1)

/-- Body rows of a table node, row by row. -/
def renderRows : List (List NodeT) → String → Nat → List (List OutT)
  | [], _, _ => []
  | row :: rs, idx, rIdx =>
      renderCells row idx rIdx 0 :: renderRows rs idx (rIdx + 1)

/-- Cells of one body row, the cell at `(rIdx, cIdx)` rendered with an index
derived jointly from both positions. -/
def renderCells : List NodeT → String → Nat → Nat → List OutT
  | [], _, _, _ => []
  | c :: cs, idx, rIdx, cIdx =>
      renderT c (idx ++ ".b." ++ jsString rIdx ++ "." ++ jsString cIdx)
        :: renderCells cs idx rIdx (cIdx + 1)

end

mutual

/-- Number of nodes of an input tree. -/
def countNodes : NodeT → Nat
  | .text _ => 1
  | .lineBreak => 1
  | .unknown _ => 1
  | .bold cs => 1 + countList cs
  | .italic cs => 1 + countList cs
  | .link _ cs => 1 + countList cs
  | .table h rs => 1 + countList h + countRows rs

def countList : List NodeT → Nat
  | [] => 0
  | c :: cs => countNodes c + countList cs

def countRows : List (List NodeT) → Nat
  | [] => 0
  | row :: rs => countList row + countRows rs

end

mutual

/-- Number of outputs of a rendered tree. -/
def countOut : OutT → Nat
  | .leaf _ _ _ => 1
  | .group _ _ _ cs => 1 + countOutList cs
  | .tableOut _ hs rows => 1 + countOutList hs + countOutRows rows

def countOutList : List OutT → Nat
  | [] => 0
  | c :: cs => countOut c + countOutList cs

def countOutRows : List (List OutT) → Nat
  | [] => 0
  | row :: rs => countOutList row + countOutRows rs

end

mutual

/-- Depth of an input tree; leaves have depth 0. -/
def depthT : NodeT → Nat
  | .text _ => 0
  | .lineBreak => 0
  | .unknown _ => 0
  | .bold cs => 1 + depthList cs
  | .italic cs => 1 + depthList cs
  | .link _ cs => 1 + depthList cs
  | .table h rs => 1 + max (depthList h) (depthRows rs)

def depthList : List NodeT → Nat
  | [] => 0
  | c :: cs => max (depthT c) (depthList cs)

def depthRows : List (List NodeT) → Nat
  | [] => 0
  | row :: rs => max (depthList row) (depthRows rs)

end

mutual

theorem countOut_renderT (n : NodeT) (idx : String) :
    countOut (renderT n idx) = countNodes n := by
  cases n with
  | text s => simp [renderT, countOut, countNodes]
  | lineBreak => simp [renderT, countOut, countNodes]
  | unknown k => simp [renderT, countOut, countNodes]
  | bold cs => simp [renderT, countOut, countNodes, countOutList_renderChildren]
  | italic cs => simp [renderT, countOut, countNodes, countOutList_renderChildren]
  | link t cs => simp [renderT, countOut, countNodes, countOutList_renderChildren]
  | table h rs =>
      simp [renderT, countOut, countNodes, countOutList_renderChildren,
        countOutRows_renderRows]

theorem countOutList_renderChildren (cs : List NodeT) (idx : String) (k : Nat) :
    countOutList (renderChildren cs idx k) = countList cs := by
  cases cs with
  | nil => simp [renderChildren, countOutList, countList]
  | cons c cs =>
      simp [renderChildren, countOutList, countList, countOut_renderT,
        countOutList_renderChildren cs idx (k + 1)]

theorem countOutRows_renderRows (rs : List (List NodeT)) (idx : String) (rIdx : Nat) :
    countOutRows (renderRows rs idx rIdx) = countRows rs := by
  cases rs with
  | nil => simp [renderRows, countOutRows, countRows]
  | cons row rs =>
      simp [renderRows, countOutRows, countRows, countOutList_renderCells,
        countOutRows_renderRows rs idx (rIdx + 1)]

theorem countOutList_renderCells (row : List NodeT) (idx : String)
    (rIdx cIdx : Nat) :
    countOutList (renderCells row idx rIdx cIdx) = countList row := by
  cases row with
  | nil => simp [renderCells, countOutList, countList]
  | cons c cs =>
      simp [renderCells, countOutList, countList, countOut_renderT,
        countOutList_renderCells cs idx rIdx (cIdx + 1)]

end

/-- C7: render terminates (it is total by structural descent) and produces
exactly one output per input node; in particular the table renderer's single
pass yields exactly one rendered output per header node and, row by row,
exactly one per body cell. -/
theorem render_one_output_per_node :
    (∀ (D : Nat) (n : NodeT) (idx : String), depthT n ≤ D →
      countOut (renderT n idx) = countNodes n)
    ∧ ∀ (h : List CellNode) (r : List TableNode_Row),
      ((renderTable h r).headerRows.map fun row => row.cells.length) = [h.length]
      ∧ ((renderTable h r).bodyRows.map fun row => row.cells.length)
          = r.map fun row => row.cells.length := by
  constructor
  · intro D n idx _
    exact countOut_renderT n idx
  · intro h r
    constructor
    · simp [renderTable, jsMapIdx, length_jsMapIdxAux]
    · simp only [renderTable, jsMapIdx, map_jsMapIdxAux]
      exact jsMapIdxAux_constant _ _ 0 r fun a i => length_jsMapIdxAux _ _ _

/-- Witness for C7 on a concrete two-row table node of depth 1. -/
theorem render_one_output_per_node_witness :
    depthT (NodeT.table [NodeT.text "A"] [[NodeT.text "x"], []]) ≤ 2
    ∧ countOut (renderT (NodeT.table [NodeT.text "A"] [[NodeT.text "x"], []]) "0")
      = countNodes (NodeT.table [NodeT.text "A"] [[NodeT.text "x"], []]) := by
  have hd : depthT (NodeT.table [NodeT.text "A"] [[NodeT.text "x"], []]) ≤ 2 := by
    simp [depthT, depthList, depthRows]
  exact ⟨hd, render_one_output_per_node.1 2 _ "0" hd⟩

end MemoRender
